import Mathlib

/-
Verification development for `kubernetes-change-storage-class` (src/main.ts).

The program migrates a PersistentVolumeClaim (PVC) to a new storage class via a
fixed six-step plan driven by a confirm-before-run loop.  This file gives a
shallow embedding of the parts of `main.ts` with real behavioural content:

* `getPVForPVC` (main.ts lines 31-51): the scan over all PersistentVolumes for
  the Bound volume whose claimRef uid matches the PVC's uid;
* the deletion-wait poll loop inside step 2 (lines 119-140), modelled as
  `deletionWaitRun` over an explicit sequence of read results;
* the replacement-claim payload built in step 3 (lines 147-161), modelled as
  `replacementClaim` (returning `Except` because `Object.entries` throws a
  TypeError when the source claim has no annotations map);
* the job-completion poll loop inside step 5 (lines 223-242), modelled as
  `jobStatusPoll` / `jobWaitRun` over a sequence of job-status snapshots;
* the step-execution loop of the CLI handler (lines 264-294), modelled as
  `runStepsAux` over a list of (prompt answer, step behaviour) pairs;
* the `if (pv)` guard of the handler (line 94), modelled as `handler` /
  `handlerOutputs`.

Optional object fields of the Kubernetes API types are modelled with `Option`;
JavaScript `undefined == undefined` comparisons become `Option` equality.
-/

/-- The `claimRef` field of a PersistentVolume spec (`pv.spec?.claimRef`);
only its `uid` is inspected by the program. -/
structure ClaimRef where
  uid : Option String
deriving Repr, DecidableEq

/-- PersistentVolume spec, restricted to the field the program reads. -/
structure PVSpec where
  claimRef : Option ClaimRef
deriving Repr, DecidableEq

/-- PersistentVolume status, restricted to the field the program reads. -/
structure PVStatus where
  phase : Option String
deriving Repr, DecidableEq

/-- A PersistentVolume as seen by `getPVForPVC`: `metadata.name`, optional
`spec` and optional `status`, mirroring the optional chaining in main.ts. -/
structure V1PersistentVolume where
  name : Option String
  spec : Option PVSpec
  status : Option PVStatus
deriving Repr, DecidableEq

/-- Object metadata of a PVC.  Annotations and labels are association lists
(the embedding of JavaScript string-keyed objects).  `annotations` is optional
because `metadata.annotations` may be absent on a real object; the program
dereferences it with a non-null assertion in step 3. -/
structure ObjectMeta where
  name : Option String
  ns : Option String
  labels : Option (List (String × String))
  annotations : Option (List (String × String))
  uid : Option String
deriving Repr, DecidableEq

/-- PVC spec: the fields copied by the `...pvc.spec` spread in step 3, plus the
two fields that step 3 overrides (`storageClassName`, `volumeName`).
`resources` is kept opaque as a string (e.g. a size request). -/
structure PVCSpec where
  storageClassName : Option String
  accessModes : List String
  resources : Option String
  volumeName : Option String
  volumeMode : Option String
deriving Repr, DecidableEq

/-- PVC status, restricted to the phase. -/
structure PVCStatus where
  phase : Option String
deriving Repr, DecidableEq

/-- A PersistentVolumeClaim.  `metadata` is taken as present (the program
dereferences `pvc.metadata?.name!` and friends unconditionally after the
initial read); its optional sub-fields keep their optionality. -/
structure V1PersistentVolumeClaim where
  metadata : ObjectMeta
  spec : PVCSpec
  status : Option PVCStatus
deriving Repr, DecidableEq

/-- `pv.status?.phase` (optional chaining). -/
def pvPhase (pv : V1PersistentVolume) : Option String :=
  pv.status.bind (fun st => st.phase)

/-- `pv.spec?.claimRef` (optional chaining). -/
def pvClaimRef (pv : V1PersistentVolume) : Option ClaimRef :=
  pv.spec.bind (fun sp => sp.claimRef)

/-- The per-volume test of the loop body of `getPVForPVC` (main.ts lines
39-47): the volume's phase is `Bound`, its claimRef is present, and the
claimRef's uid equals the PVC's uid (JavaScript `==`; `undefined == undefined`
holds, matching `Option` equality on `none`). -/
def pvMatchesPVC (pvc : V1PersistentVolumeClaim) (pv : V1PersistentVolume) : Bool :=
  pvPhase pv == some "Bound" &&
    match pvClaimRef pv with
    | some claimRef => claimRef.uid == pvc.metadata.uid
    | none => false

/-- `getPVForPVC` (main.ts lines 31-51): return the first volume of the
cluster-wide list that satisfies `pvMatchesPVC`, else `null`. -/
def getPVForPVC (pvs : List V1PersistentVolume) (pvc : V1PersistentVolumeClaim) :
    Option V1PersistentVolume :=
  pvs.find? (pvMatchesPVC pvc)

/-- Result of one `readNamespacedPersistentVolumeClaim` call inside step 2's
wait loop: the read succeeds (the claim still exists), or it throws a
`k8s.HttpError` with the given status code, or it throws some non-HTTP error. -/
inductive ReadResult
  | found
  | httpError (statusCode : Nat)
  | otherError
deriving Repr, DecidableEq

/-- The test on line 133 of main.ts: `e instanceof k8s.HttpError &&
e.statusCode == 404`.  A successful read is not an error and never passes. -/
def isNotFound (r : ReadResult) : Bool :=
  match r with
  | ReadResult.httpError code => code == 404
  | ReadResult.found => false
  | ReadResult.otherError => false

/-- How a run of the deletion-wait loop ends relative to a finite sequence of
read results: `succeeded` means the loop hit `break` (a 404 was observed);
`stillWaiting` means the supplied sequence was exhausted with the loop still
polling. -/
inductive LoopOutcome
  | succeeded
  | stillWaiting
deriving Repr, DecidableEq

/-- Observable trace of a run of the deletion-wait loop: number of
progress-line writes (the `clearLine`/`cursorTo`/`output` block on lines
123-125, executed at the top of every iteration), number of 1-second sleeps
(line 139, skipped by `break`), number of claim reads performed, and the
outcome. -/
structure LoopTrace where
  reports : Nat
  sleeps : Nat
  evals : Nat
  outcome : LoopOutcome
deriving Repr, DecidableEq

/-- The deletion-wait loop of step 2 (main.ts lines 119-140), evaluated
against a sequence of read results.  Each iteration writes the progress line,
performs a read, and breaks if and only if the read threw an `HttpError` with
status 404; every other result — including any other error, which the
`catch` block silently discards — falls through to the sleep and the next
iteration. -/
def deletionWaitRun : List ReadResult → LoopTrace
  | [] => { reports := 0, sleeps := 0, evals := 0, outcome := LoopOutcome.stillWaiting }
  | r :: rest =>
    if isNotFound r then
      { reports := 1, sleeps := 0, evals := 1, outcome := LoopOutcome.succeeded }
    else
      let t := deletionWaitRun rest
      { reports := t.reports + 1, sleeps := t.sleeps + 1, evals := t.evals + 1,
        outcome := t.outcome }

/-- The reserved-key test of step 3 (main.ts line 153):
`k.startsWith('pv.kubernetes.io/')`, embedded as a character-list comparison
so that it evaluates by kernel reduction. -/
def startsWithReserved (k : String) : Bool :=
  List.isPrefixOf "pv.kubernetes.io/".data k.data

/-- The annotation filter of step 3 (main.ts line 153): keep exactly the
entries whose key does not carry the reserved platform suffix
`pv.kubernetes.io/` at its start. -/
def filterAnns (anns : List (String × String)) : List (String × String) :=
  anns.filter (fun kv => !startsWithReserved kv.1)

/-- The JavaScript runtime error raised by `Object.entries(undefined)`. -/
def annotationsTypeError : String :=
  "TypeError: Cannot convert undefined or null to object"

/-- The object literal passed to `createNamespacedPersistentVolumeClaim` in
step 3 (main.ts lines 147-161) once the annotations map `anns` has been read:
`{...pvc, metadata: {namespace, name, labels, annotations: filtered},
status: undefined, spec: {...pvc.spec, storageClassName: new,
volumeName: undefined}}`. -/
def replacementBody (pvc : V1PersistentVolumeClaim) (newStorageClassName : String)
    (anns : List (String × String)) : V1PersistentVolumeClaim :=
  { metadata :=
      { name := pvc.metadata.name
        ns := pvc.metadata.ns
        labels := pvc.metadata.labels
        annotations := some (filterAnns anns)
        uid := none }
    spec :=
      { pvc.spec with
        storageClassName := some newStorageClassName
        volumeName := none }
    status := none }

/-- The replacement-claim payload built by step 3 (main.ts lines 147-161).
When the source claim has no annotations map,
`Object.entries(pvc.metadata?.annotations!)` throws, modelled as
`Except.error`. -/
def replacementClaim (pvc : V1PersistentVolumeClaim) (newStorageClassName : String) :
    Except String V1PersistentVolumeClaim :=
  match pvc.metadata.annotations with
  | none => Except.error annotationsTypeError
  | some anns => Except.ok (replacementBody pvc newStorageClassName anns)

/-- Job status counters (`jobStatus.body.status`), both optional as in the
API type. -/
structure V1JobStatus where
  failed : Option Nat
  succeeded : Option Nat
deriving Repr, DecidableEq

/-- `jobStatus.body.status?.failed || 0` (main.ts line 227). -/
def failedCount (st : Option V1JobStatus) : Nat :=
  match st with
  | none => 0
  | some s => s.failed.getD 0

/-- `jobStatus.body.status?.succeeded || 0` (main.ts line 231). -/
def succeededCount (st : Option V1JobStatus) : Nat :=
  match st with
  | none => 0
  | some s => s.succeeded.getD 0

/-- The tri-state poll result of the spec's PollLoop primitive. -/
inductive PollResult
  | pending
  | succeeded
  | failed
deriving Repr, DecidableEq

/-- One evaluation of step 5's wait-loop predicate (main.ts lines 227-235):
failed counter checked first, then succeeded, else pending. -/
def jobStatusPoll (st : Option V1JobStatus) : PollResult :=
  if failedCount st > 0 then PollResult.failed
  else if succeededCount st > 0 then PollResult.succeeded
  else PollResult.pending

/-- The job-completion wait loop of step 5 (main.ts lines 221-246), evaluated
against a sequence of status snapshots.  `some b` means the loop broke with
its `succeeded` flag equal to `b` (which is step 5's return value); `none`
means the snapshot sequence was exhausted with the loop still polling. -/
def jobWaitRun : List (Option V1JobStatus) → Option Bool
  | [] => none
  | st :: rest =>
    match jobStatusPoll st with
    | PollResult.failed => some false
    | PollResult.succeeded => some true
    | PollResult.pending => jobWaitRun rest

/-- What a step's `run()` closure does when invoked: returns `true`, returns
`false`, or throws. -/
inductive StepBehavior
  | ok
  | failedStep
  | threw
deriving Repr, DecidableEq

/-- Terminal state of the handler's step-execution loop. -/
inductive RunOutcome
  | completed
  | declined (i : Nat)
  | stepFailed (i : Nat)
deriving Repr, DecidableEq

/-- The step-execution loop of the handler (main.ts lines 264-294), over the
remaining steps, each given as the operator's answer to its confirm prompt
together with its action's behaviour when invoked.  `n` is the index of the
first remaining step.  Returns the list of step indices whose actions were
invoked (in order) and the terminal outcome.  An answer other than the exact
string `"Y"` returns immediately (line 270-273); a `false` return or a thrown
error returns after the current step (lines 283-293). -/
def runStepsAux : Nat → List (String × StepBehavior) → List Nat × RunOutcome
  | _, [] => ([], RunOutcome.completed)
  | i, (ans, b) :: rest =>
    if ans = "Y" then
      match b with
      | StepBehavior.ok =>
        let t := runStepsAux (i + 1) rest
        (i :: t.1, t.2)
      | StepBehavior.failedStep => ([i], RunOutcome.stepFailed i)
      | StepBehavior.threw => ([i], RunOutcome.stepFailed i)
    else ([], RunOutcome.declined i)

/-- The indices of the steps whose actions were invoked during a run starting
at step 0. -/
def invokedSteps (specs : List (String × StepBehavior)) : List Nat :=
  (runStepsAux 0 specs).1

/-- The number of step actions invoked during a run: every consecutive
leading step that is confirmed runs; the streak ends at the first step that
fails or throws (which still ran) or at the first declined prompt (which did
not run). -/
def invokedCount : List (String × StepBehavior) → Nat
  | [] => 0
  | (ans, b) :: rest =>
    if ans = "Y" then
      match b with
      | StepBehavior.ok => invokedCount rest + 1
      | StepBehavior.failedStep => 1
      | StepBehavior.threw => 1
    else 0

/-- The three `output` calls the handler always performs before the `if (pv)`
guard (main.ts lines 83, 89, 90). -/
def gatherOutputs : List String :=
  ["Gathering info...", "Done!\n", "\n"]

/-- Handler result at the granularity of the `if (pv)` guard (main.ts line
94): when discovery finds no matching Bound volume the guard's body — plan
construction, the step descriptions, and the step-execution loop — is
skipped entirely and the handler returns; otherwise the plan is built and the
step loop runs. -/
inductive HandlerResult
  | noBoundPV
  | ran (invoked : List Nat) (outcome : RunOutcome)
deriving Repr, DecidableEq

/-- The CLI handler after discovery, abstracted over the volume list and the
operator/step behaviours (main.ts lines 94-298). -/
def handler (pvs : List V1PersistentVolume) (pvc : V1PersistentVolumeClaim)
    (specs : List (String × StepBehavior)) : HandlerResult :=
  match getPVForPVC pvs pvc with
  | none => HandlerResult.noBoundPV
  | some _ => HandlerResult.ran (runStepsAux 0 specs).1 (runStepsAux 0 specs).2

/-- The handler's terminal output at the granularity relevant to the `if (pv)`
guard: the discovery progress text is always written; the found-summary, the
plan listing and all per-step text are written only inside the guard (here
collapsed to the guard body's first banner line — the claims about this
function concern only the `none` branch, where the body emits nothing). -/
def handlerOutputs (pvs : List V1PersistentVolume) (pvc : V1PersistentVolumeClaim) :
    List String :=
  gatherOutputs ++
    (match getPVForPVC pvs pvc with
     | none => []
     | some _ =>
       ["If you approve, we will carry out the following steps. You will be given the opportunity to stop the process after each step."])

/-- Demo source claim used for concrete evaluations: annotations carry one
reserved key and one ordinary key (the pair from the spec's annotation
filtering example). -/
def demoAnns : List (String × String) :=
  [("pv.kubernetes.io/bound-by-controller", "yes"), ("team", "infra")]

/-- Demo source PVC bound to volume `pv-1` under storage class `standard`. -/
def demoPVC : V1PersistentVolumeClaim :=
  { metadata :=
      { name := some "data"
        ns := some "default"
        labels := some [("app", "db")]
        annotations := some demoAnns
        uid := some "uid-1" }
    spec :=
      { storageClassName := some "standard"
        accessModes := ["ReadWriteOnce"]
        resources := some "1Gi"
        volumeName := some "pv-1"
        volumeMode := none }
    status := some { phase := some "Bound" } }

/-- Demo source PVC whose metadata carries no annotations map. -/
def demoPVCNoAnns : V1PersistentVolumeClaim :=
  { metadata :=
      { name := some "data"
        ns := some "default"
        labels := none
        annotations := none
        uid := some "uid-2" }
    spec :=
      { storageClassName := some "standard"
        accessModes := ["ReadWriteOnce"]
        resources := some "1Gi"
        volumeName := some "pv-1"
        volumeMode := none }
    status := some { phase := some "Bound" } }

/-- A Bound volume whose claimRef uid does not match `demoPVC`. -/
def demoPVOther : V1PersistentVolume :=
  { name := some "pv-9"
    spec := some { claimRef := some { uid := some "uid-other" } }
    status := some { phase := some "Bound" } }

/-- A volume list containing no Bound volume matching `demoPVC`. -/
def demoPVsNoMatch : List V1PersistentVolume :=
  [demoPVOther]

/-- The replacement claim that step 3 builds from `demoPVC` with target
storage class `fast`: same name/namespace/labels, reserved annotation key
stripped, storage class replaced, volume reference and status dropped. -/
def demoReplacement : V1PersistentVolumeClaim :=
  { metadata :=
      { name := some "data"
        ns := some "default"
        labels := some [("app", "db")]
        annotations := some [("team", "infra")]
        uid := none }
    spec :=
      { storageClassName := some "fast"
        accessModes := ["ReadWriteOnce"]
        resources := some "1Gi"
        volumeName := none
        volumeMode := none }
    status := none }

/-- Three confirmed steps, all of which return success. -/
def demoSpecs : List (String × StepBehavior) :=
  [("Y", StepBehavior.ok), ("Y", StepBehavior.ok), ("Y", StepBehavior.ok)]

/-- Three confirmed steps of which the second fails. -/
def demoSpecsFail : List (String × StepBehavior) :=
  [("Y", StepBehavior.ok), ("Y", StepBehavior.failedStep), ("Y", StepBehavior.ok)]

/-- Three steps of which the second prompt is declined with `"N"`. -/
def demoSpecsDecline : List (String × StepBehavior) :=
  [("Y", StepBehavior.ok), ("N", StepBehavior.ok), ("Y", StepBehavior.ok)]

example : invokedSteps demoSpecs = [0, 1, 2] := by decide
example : invokedSteps demoSpecsFail = [0, 1] := by decide
example : invokedSteps demoSpecsDecline = [0] := by decide
example : (runStepsAux 0 demoSpecsDecline).2 = RunOutcome.declined 1 := by decide
example : filterAnns demoAnns = [("team", "infra")] := by decide
example : getPVForPVC demoPVsNoMatch demoPVC = none := by decide
example : jobWaitRun [some { failed := some 0, succeeded := some 0 },
    some { failed := some 1, succeeded := some 1 }] = some false := by decide
example : deletionWaitRun [ReadResult.found, ReadResult.found, ReadResult.httpError 404] =
    { reports := 3, sleeps := 2, evals := 3, outcome := LoopOutcome.succeeded } := by decide

theorem runStepsAux_fst (specs : List (String × StepBehavior)) :
    ∀ n, (runStepsAux n specs).1 = List.range' n (invokedCount specs) := by
  induction specs with
  | nil => intro n; rfl
  | cons hd tl ih =>
    intro n
    obtain ⟨ans, b⟩ := hd
    by_cases h : ans = "Y"
    · cases b with
      | ok => simp [runStepsAux, invokedCount, h, ih, List.range'_succ]
      | failedStep => simp [runStepsAux, invokedCount, h]
      | threw => simp [runStepsAux, invokedCount, h]
    · simp [runStepsAux, invokedCount, h]

theorem mem_invokedSteps (specs : List (String × StepBehavior)) (j : Nat) :
    j ∈ invokedSteps specs ↔ j < invokedCount specs := by
  rw [invokedSteps, runStepsAux_fst specs 0, List.mem_range'_1]
  omega

theorem count_invokedSteps_le_one (specs : List (String × StepBehavior)) (i : Nat) :
    (invokedSteps specs).count i ≤ 1 := by
  rw [invokedSteps, runStepsAux_fst specs 0]
  exact List.nodup_iff_count_le_one.mp (List.nodup_range' 0 (invokedCount specs)) i

theorem okAt_of_succ_lt_invokedCount :
    ∀ (specs : List (String × StepBehavior)) (i : Nat), i + 1 < invokedCount specs →
      ∃ a, specs[i]? = some (a, StepBehavior.ok) := by
  intro specs
  induction specs with
  | nil => intro i h; simp [invokedCount] at h
  | cons hd tl ih =>
    intro i h
    obtain ⟨ans, b⟩ := hd
    by_cases hy : ans = "Y"
    · cases b with
      | ok =>
        cases i with
        | zero => exact ⟨ans, by simp⟩
        | succ j =>
          have h' : j + 1 < invokedCount tl := by
            simp [invokedCount, hy] at h
            omega
          simpa using ih j h'
      | failedStep => simp [invokedCount, hy] at h
      | threw => simp [invokedCount, hy] at h
    · simp [invokedCount, hy] at h

theorem answerY_of_lt_invokedCount :
    ∀ (specs : List (String × StepBehavior)) (i : Nat) (a : String) (b : StepBehavior),
      i < invokedCount specs → specs[i]? = some (a, b) → a = "Y" := by
  intro specs
  induction specs with
  | nil => intro i a b h _; simp [invokedCount] at h
  | cons hd tl ih =>
    intro i a b h hg
    obtain ⟨ans, c⟩ := hd
    by_cases hy : ans = "Y"
    · cases i with
      | zero =>
        simp [Prod.mk.injEq] at hg
        exact hg.1 ▸ hy
      | succ j =>
        cases c with
        | ok =>
          have h' : j < invokedCount tl := by
            simp [invokedCount, hy] at h
            omega
          exact ih j a b h' (by simpa using hg)
        | failedStep => simp [invokedCount, hy] at h
        | threw => simp [invokedCount, hy] at h
    · simp [invokedCount, hy] at h

theorem invokedCount_le_of_not_ok :
    ∀ (specs : List (String × StepBehavior)) (i : Nat) (a : String) (b : StepBehavior),
      specs[i]? = some (a, b) → b ≠ StepBehavior.ok → invokedCount specs ≤ i + 1 := by
  intro specs
  induction specs with
  | nil => intro i a b hg _; simp at hg
  | cons hd tl ih =>
    intro i a b hg hb
    obtain ⟨ans, c⟩ := hd
    by_cases hy : ans = "Y"
    · cases i with
      | zero =>
        simp [Prod.mk.injEq] at hg
        cases hg.2
        cases b with
        | ok => exact absurd rfl hb
        | failedStep => simp [invokedCount, hy]
        | threw => simp [invokedCount, hy]
      | succ j =>
        cases c with
        | ok =>
          have := ih j a b (by simpa using hg) hb
          simp [invokedCount, hy]
          omega
        | failedStep => simp [invokedCount, hy]
        | threw => simp [invokedCount, hy]
    · simp [invokedCount, hy]

theorem invokedCount_le_of_decline :
    ∀ (specs : List (String × StepBehavior)) (i : Nat) (a : String) (b : StepBehavior),
      specs[i]? = some (a, b) → a ≠ "Y" → invokedCount specs ≤ i := by
  intro specs
  induction specs with
  | nil => intro i a b hg _; simp at hg
  | cons hd tl ih =>
    intro i a b hg ha
    obtain ⟨ans, c⟩ := hd
    cases i with
    | zero =>
      simp [Prod.mk.injEq] at hg
      have hy : ¬ ans = "Y" := by rw [hg.1]; exact ha
      simp [invokedCount, hy]
    | succ j =>
      by_cases hy : ans = "Y"
      · cases c with
        | ok =>
          have := ih j a b (by simpa using hg) ha
          simp [invokedCount, hy]
          omega
        | failedStep => simp [invokedCount, hy]
        | threw => simp [invokedCount, hy]
      · simp [invokedCount, hy]

theorem runStepsAux_declined :
    ∀ (specs : List (String × StepBehavior)) (n i : Nat) (a : String) (b : StepBehavior),
      specs[i]? = some (a, b) → a ≠ "Y" →
      (∀ j, j < i → specs[j]? = some ("Y", StepBehavior.ok)) →
      (runStepsAux n specs).2 = RunOutcome.declined (n + i) := by
  intro specs
  induction specs with
  | nil => intro n i a b hg _ _; simp at hg
  | cons hd tl ih =>
    intro n i a b hg ha hprev
    obtain ⟨ans, c⟩ := hd
    cases i with
    | zero =>
      simp [Prod.mk.injEq] at hg
      obtain ⟨h1, h2⟩ := hg
      subst h1
      subst h2
      simp [runStepsAux, ha]
    | succ j =>
      have h0 := hprev 0 (Nat.succ_pos j)
      simp [Prod.mk.injEq] at h0
      obtain ⟨h1, h2⟩ := h0
      subst h1
      subst h2
      have hres := ih (n + 1) j a b (by simpa using hg) ha
        (fun k hk => by simpa using hprev (k + 1) (by omega))
      have heq : n + 1 + j = n + (j + 1) := by omega
      rw [heq] at hres
      simpa [runStepsAux] using hres

theorem invokedCount_le_length (specs : List (String × StepBehavior)) :
    invokedCount specs ≤ specs.length := by
  induction specs with
  | nil => simp [invokedCount]
  | cons hd tl ih =>
    obtain ⟨ans, b⟩ := hd
    by_cases hy : ans = "Y"
    · cases b with
      | ok =>
        simp only [invokedCount, hy, if_true, List.length_cons]
        omega
      | failedStep =>
        simp only [invokedCount, hy, if_true, List.length_cons]
        omega
      | threw =>
        simp only [invokedCount, hy, if_true, List.length_cons]
        omega
    · simp only [invokedCount, hy, if_false, List.length_cons]
      omega

/-- C2: for every run (any list of prompt answers and step behaviours) and
every step index `i`, step `i+1`'s action is invoked only if step `i`'s action
was invoked and returned success without throwing; each step's action is
invoked at most once per run; and after any step returns `false` or throws,
no later step's action is ever invoked. -/
theorem stepSequencing_once_and_ordered (specs : List (String × StepBehavior)) (i : Nat) :
    ((i + 1) ∈ invokedSteps specs →
      i ∈ invokedSteps specs ∧ ∃ a, specs[i]? = some (a, StepBehavior.ok))
    ∧ (invokedSteps specs).count i ≤ 1
    ∧ (∀ a b j, specs[i]? = some (a, b) → b ≠ StepBehavior.ok → i < j →
        j ∉ invokedSteps specs) := by
  refine ⟨fun hmem => ?_, count_invokedSteps_le_one specs i, fun a b j hg hb hij hmem => ?_⟩
  · rw [mem_invokedSteps] at hmem
    exact ⟨(mem_invokedSteps specs i).mpr (by omega),
      okAt_of_succ_lt_invokedCount specs i hmem⟩
  · rw [mem_invokedSteps] at hmem
    have := invokedCount_le_of_not_ok specs i a b hg hb
    omega

/-- C2 witness: in a three-step run where every prompt is answered `Y` and
every action succeeds, step 1's invocation implies step 0 ran and succeeded;
in a run whose second step fails, step 1 runs at most once and step 2 is
never invoked. -/
theorem stepSequencing_once_and_ordered_witness :
    (0 ∈ invokedSteps demoSpecs ∧ ∃ a, demoSpecs[0]? = some (a, StepBehavior.ok))
    ∧ (invokedSteps demoSpecsFail).count 1 ≤ 1
    ∧ 2 ∉ invokedSteps demoSpecsFail := by
  refine ⟨(stepSequencing_once_and_ordered demoSpecs 0).1 (by decide),
    (stepSequencing_once_and_ordered demoSpecsFail 1).2.1,
    (stepSequencing_once_and_ordered demoSpecsFail 1).2.2 "Y" StepBehavior.failedStep 2
      (by decide) (by decide) (by decide)⟩

/-- C4: a step's action runs only when its confirm prompt was answered with
the exact case-sensitive token `Y`; on any other answer at step `i`, neither
step `i` nor any later step is invoked (so no further resource-API calls are
made: every API call after discovery lives inside a step action), and — when
the prompt was actually reached, i.e. all earlier steps were confirmed and
succeeded — the run terminates then and there as `declined i`. -/
theorem confirmationGate_exactY (specs : List (String × StepBehavior)) (i : Nat) :
    (i ∈ invokedSteps specs → ∃ a b, specs[i]? = some (a, b) ∧ a = "Y")
    ∧ (∀ a b j, specs[i]? = some (a, b) → a ≠ "Y" → i ≤ j → j ∉ invokedSteps specs)
    ∧ (∀ a b, specs[i]? = some (a, b) → a ≠ "Y" →
        (∀ j, j < i → specs[j]? = some ("Y", StepBehavior.ok)) →
        (runStepsAux 0 specs).2 = RunOutcome.declined i) := by
  refine ⟨fun hmem => ?_, fun a b j hg ha hij hmem => ?_, fun a b hg ha hprev => ?_⟩
  · rw [mem_invokedSteps] at hmem
    have hlen : i < specs.length := lt_of_lt_of_le hmem (invokedCount_le_length specs)
    have hg := List.getElem?_eq_getElem hlen
    obtain ⟨⟨a, b⟩, hsome⟩ : ∃ p, specs[i]? = some p := ⟨_, hg⟩
    exact ⟨a, b, hsome, answerY_of_lt_invokedCount specs i a b hmem hsome⟩
  · rw [mem_invokedSteps] at hmem
    have := invokedCount_le_of_decline specs i a b hg ha
    omega
  · simpa using runStepsAux_declined specs 0 i a b hg ha hprev

/-- C4 witness: in the run whose second prompt is answered `N`, step 0 (which
did run) was confirmed with `Y`; step 1 is not invoked; and the run terminates
as `declined 1`. -/
theorem confirmationGate_exactY_witness :
    (∃ a b, demoSpecsDecline[0]? = some (a, b) ∧ a = "Y")
    ∧ 1 ∉ invokedSteps demoSpecsDecline
    ∧ (runStepsAux 0 demoSpecsDecline).2 = RunOutcome.declined 1 := by
  refine ⟨(confirmationGate_exactY demoSpecsDecline 0).1 (by decide),
    (confirmationGate_exactY demoSpecsDecline 1).2.1 "N" StepBehavior.ok 1
      (by decide) (by decide) (by omega),
    (confirmationGate_exactY demoSpecsDecline 1).2.2 "N" StepBehavior.ok
      (by decide) (by decide) (fun j hj => ?_)⟩
  have hj0 : j = 0 := by omega
  subst hj0
  decide

/-- C1 (amended): every read failure inside the deletion-wait loop, whatever
its kind, is caught and swallowed; the loop terminates (with success) exactly
when some read yields an HttpError with status 404, and any non-404 result —
including other HTTP errors and non-HTTP exceptions — is treated exactly like
a still-existing claim: the loop sleeps and polls again, leaving the eventual
outcome unchanged.  (The original claim, that non-404 errors are propagated
out of the loop, is refuted by `deletionWait_error_swallowed_cex`.) -/
theorem deletionWait_error_swallowed :
    (∀ reads, (deletionWaitRun reads).outcome = LoopOutcome.succeeded ↔
      ∃ r ∈ reads, isNotFound r = true)
    ∧ (∀ r reads, isNotFound r = false →
        (deletionWaitRun (r :: reads)).outcome = (deletionWaitRun reads).outcome
        ∧ (deletionWaitRun (r :: reads)).sleeps = (deletionWaitRun reads).sleeps + 1) := by
  constructor
  · intro reads
    induction reads with
    | nil => simp [deletionWaitRun]
    | cons r rest ih =>
      by_cases h : isNotFound r
      · simp only [deletionWaitRun, h, if_true]
        exact ⟨fun _ => ⟨r, List.mem_cons_self r rest, h⟩, fun _ => trivial⟩
      · simp only [Bool.not_eq_true] at h
        simp [deletionWaitRun, h, ih]
  · intro r reads h
    simp [deletionWaitRun, h]

/-- C1 counterexample: a read failing with HTTP 500 followed by a read failing
with HTTP 404.  The 500 is not propagated: the loop sleeps once after it
(treating it as Pending) and then terminates with success on the 404. -/
theorem deletionWait_error_swallowed_cex :
    deletionWaitRun [ReadResult.httpError 500, ReadResult.httpError 404] =
      { reports := 2, sleeps := 1, evals := 2, outcome := LoopOutcome.succeeded } := by
  decide

/-- C1 witness: the amended theorem applied to the singleton HTTP-500 read
sequence and to a non-HTTP error in front of the empty sequence. -/
theorem deletionWait_error_swallowed_witness :
    ((deletionWaitRun [ReadResult.httpError 500]).outcome = LoopOutcome.succeeded ↔
      ∃ r ∈ [ReadResult.httpError 500], isNotFound r = true)
    ∧ (deletionWaitRun [ReadResult.otherError]).sleeps = (deletionWaitRun []).sleeps + 1 :=
  ⟨deletionWait_error_swallowed.1 [ReadResult.httpError 500],
   (deletionWait_error_swallowed.2 ReadResult.otherError [] (by decide)).2⟩

/-- C7 counterexample: for the read sequence [exists, exists, Not-Found] the
loop writes the progress line three times, not two: the write happens at the
top of every iteration (main.ts lines 123-125), including the iteration whose
read observes the 404. -/
theorem deletionWait_tickCount_cex :
    ¬ (deletionWaitRun [ReadResult.found, ReadResult.found,
        ReadResult.httpError 404]).reports = 2 := by
  decide

/-- C7 (amended): for the read sequence [exists, exists, Not-Found] the loop
performs exactly three progress-report writes (one at the start of each of the
three evaluations, the last just before the read that observes the 404) and
exactly two sleeps, and returns Succeeded on the third evaluation of the
predicate. -/
theorem deletionWait_tickCount :
    deletionWaitRun [ReadResult.found, ReadResult.found, ReadResult.httpError 404] =
      { reports := 3, sleeps := 2, evals := 3, outcome := LoopOutcome.succeeded } := by
  decide

/-- C3: in step 5's wait loop a snapshot with positive failed count yields
Failed regardless of the succeeded count (failed is checked first); with
failed count 0 and positive succeeded count it yields Succeeded; with both 0
it yields Pending and the loop continues; the spec's sequence [{0,0},{1,1}]
resolves to Failed (step 5 returns false); and step 5 returns success only
when some snapshot actually evaluated to Succeeded. -/
theorem jobWait_failed_precedence :
    (∀ st, 0 < failedCount st → jobStatusPoll st = PollResult.failed)
    ∧ (∀ st, failedCount st = 0 → 0 < succeededCount st →
        jobStatusPoll st = PollResult.succeeded)
    ∧ (∀ st snaps, failedCount st = 0 → succeededCount st = 0 →
        jobStatusPoll st = PollResult.pending ∧ jobWaitRun (st :: snaps) = jobWaitRun snaps)
    ∧ jobWaitRun [some { failed := some 0, succeeded := some 0 },
        some { failed := some 1, succeeded := some 1 }] = some false
    ∧ (∀ snaps, jobWaitRun snaps = some true →
        ∃ st ∈ snaps, jobStatusPoll st = PollResult.succeeded) := by
  refine ⟨?_, ?_, ?_, by decide, ?_⟩
  · intro st h
    simp [jobStatusPoll, h]
  · intro st h1 h2
    simp [jobStatusPoll, h1, h2]
  · intro st snaps h1 h2
    have hp : jobStatusPoll st = PollResult.pending := by simp [jobStatusPoll, h1, h2]
    exact ⟨hp, by simp [jobWaitRun, hp]⟩
  · intro snaps
    induction snaps with
    | nil => intro h; simp [jobWaitRun] at h
    | cons st rest ih =>
      intro h
      cases hp : jobStatusPoll st with
      | pending =>
        simp only [jobWaitRun, hp] at h
        obtain ⟨st', hmem, hs⟩ := ih h
        exact ⟨st', List.mem_cons_of_mem st hmem, hs⟩
      | succeeded => exact ⟨st, List.mem_cons_self st rest, hp⟩
      | failed => simp [jobWaitRun, hp] at h

/-- C3 witness: the failed-count check dominates on {2,3}; {0,1} is
Succeeded; {0,0} is Pending and the loop moves on; and a run that returned
success did reach a Succeeded snapshot. -/
theorem jobWait_failed_precedence_witness :
    jobStatusPoll (some { failed := some 2, succeeded := some 3 }) = PollResult.failed
    ∧ jobStatusPoll (some { failed := some 0, succeeded := some 1 }) = PollResult.succeeded
    ∧ (jobStatusPoll (some { failed := some 0, succeeded := some 0 }) = PollResult.pending
        ∧ jobWaitRun [some { failed := some 0, succeeded := some 0 }] = jobWaitRun [])
    ∧ (∃ st ∈ [some { failed := some 0, succeeded := some 2 }],
        jobStatusPoll st = PollResult.succeeded) :=
  ⟨jobWait_failed_precedence.1 _ (by decide),
   jobWait_failed_precedence.2.1 _ (by decide) (by decide),
   jobWait_failed_precedence.2.2.1 _ [] (by decide) (by decide),
   jobWait_failed_precedence.2.2.2.2 _ (by decide)⟩

/-- C10: a snapshot whose status object is absent, or whose failed and
succeeded counters are both absent, is read as failed-count 0 and
succeeded-count 0 (the `|| 0` defaults) and so evaluates to Pending; the loop
never resolves Failed or Succeeded on such a snapshot and keeps polling. -/
theorem jobWait_missing_counters_pending :
    jobStatusPoll none = PollResult.pending
    ∧ (∀ st : V1JobStatus, st.failed = none → st.succeeded = none →
        jobStatusPoll (some st) = PollResult.pending)
    ∧ (∀ snaps, jobWaitRun (none :: snaps) = jobWaitRun snaps)
    ∧ (∀ snaps (st : V1JobStatus), st.failed = none → st.succeeded = none →
        jobWaitRun (some st :: snaps) = jobWaitRun snaps) := by
  refine ⟨by decide, ?_, ?_, ?_⟩
  · intro st h1 h2
    simp [jobStatusPoll, failedCount, succeededCount, h1, h2]
  · intro snaps
    simp [jobWaitRun, jobStatusPoll, failedCount, succeededCount]
  · intro snaps st h1 h2
    have hp : jobStatusPoll (some st) = PollResult.pending := by
      simp [jobStatusPoll, failedCount, succeededCount, h1, h2]
    simp [jobWaitRun, hp]

/-- C10 witness: a snapshot with both counters absent is Pending and the loop
continues past it. -/
theorem jobWait_missing_counters_pending_witness :
    jobStatusPoll (some { failed := none, succeeded := none }) = PollResult.pending
    ∧ jobWaitRun [some { failed := none, succeeded := none }] = jobWaitRun [] :=
  ⟨jobWait_missing_counters_pending.2.1 { failed := none, succeeded := none } rfl rfl,
   jobWait_missing_counters_pending.2.2.2 [] { failed := none, succeeded := none } rfl rfl⟩

/-- C5: the replacement claim of step 3 carries exactly those annotation
entries of the source claim whose key does not start with the reserved
platform marker `pv.kubernetes.io/`, each with its value unchanged (stated
extensionally over entries); and on the spec's concrete example — a reserved
bound-by-controller key plus a `team` key — the result is exactly
[("team", "infra")]. -/
theorem annotationFiltering_reserved :
    (∀ (pvc : V1PersistentVolumeClaim) (cls : String) (anns : List (String × String)),
      pvc.metadata.annotations = some anns →
      ∃ pvc' anns', replacementClaim pvc cls = Except.ok pvc'
        ∧ pvc'.metadata.annotations = some anns'
        ∧ ∀ k v, ((k, v) ∈ anns' ↔ (k, v) ∈ anns ∧ startsWithReserved k = false))
    ∧ (∃ pvc', replacementClaim demoPVC "fast" = Except.ok pvc'
        ∧ pvc'.metadata.annotations = some [("team", "infra")]) := by
  constructor
  · intro pvc cls anns h
    refine ⟨replacementBody pvc cls anns, filterAnns anns, ?_, rfl, ?_⟩
    · unfold replacementClaim
      rw [h]
    · intro k v
      constructor
      · intro hm
        have hf := List.mem_filter.mp hm
        exact ⟨hf.1, by simpa using hf.2⟩
      · intro hm
        exact List.mem_filter.mpr ⟨hm.1, by simpa using hm.2⟩
  · exact ⟨_, rfl, by decide⟩

/-- C5 witness: the general filtering statement instantiated at the demo
claim, whose annotations are the spec's concrete example. -/
theorem annotationFiltering_reserved_witness :
    ∃ pvc' anns', replacementClaim demoPVC "standard" = Except.ok pvc'
      ∧ pvc'.metadata.annotations = some anns'
      ∧ ∀ k v, ((k, v) ∈ anns' ↔ (k, v) ∈ demoAnns ∧ startsWithReserved k = false) :=
  annotationFiltering_reserved.1 demoPVC "standard" demoAnns rfl

/-- C6: whenever step 3 succeeds in building the replacement claim, the result
has the same name, namespace and labels as the source claim, and a spec equal
to the source spec in every field except storageClassName (set to the target
class) and volumeName (removed); the remaining spec fields — accessModes,
resources, volumeMode — are unchanged. -/
theorem replacementClaim_frame (pvc : V1PersistentVolumeClaim) (cls : String)
    (pvc' : V1PersistentVolumeClaim) (h : replacementClaim pvc cls = Except.ok pvc') :
    pvc'.metadata.name = pvc.metadata.name
    ∧ pvc'.metadata.ns = pvc.metadata.ns
    ∧ pvc'.metadata.labels = pvc.metadata.labels
    ∧ pvc'.spec.storageClassName = some cls
    ∧ pvc'.spec.volumeName = none
    ∧ pvc'.spec.accessModes = pvc.spec.accessModes
    ∧ pvc'.spec.resources = pvc.spec.resources
    ∧ pvc'.spec.volumeMode = pvc.spec.volumeMode := by
  cases hm : pvc.metadata.annotations with
  | none =>
    have he : replacementClaim pvc cls = Except.error annotationsTypeError := by
      unfold replacementClaim
      rw [hm]
    rw [he] at h
    simp at h
  | some anns =>
    have he : replacementClaim pvc cls = Except.ok (replacementBody pvc cls anns) := by
      unfold replacementClaim
      rw [hm]
    rw [he] at h
    injection h with h
    subst h
    exact ⟨rfl, rfl, rfl, rfl, rfl, rfl, rfl, rfl⟩

/-- C6 witness: the frame statement instantiated at the demo claim and its
concretely computed replacement. -/
theorem replacementClaim_frame_witness :
    demoReplacement.metadata.name = demoPVC.metadata.name
    ∧ demoReplacement.metadata.ns = demoPVC.metadata.ns
    ∧ demoReplacement.metadata.labels = demoPVC.metadata.labels
    ∧ demoReplacement.spec.storageClassName = some "fast"
    ∧ demoReplacement.spec.volumeName = none
    ∧ demoReplacement.spec.accessModes = demoPVC.spec.accessModes
    ∧ demoReplacement.spec.resources = demoPVC.spec.resources
    ∧ demoReplacement.spec.volumeMode = demoPVC.spec.volumeMode :=
  replacementClaim_frame demoPVC "fast" demoReplacement rfl

/-- C9: when the source claim's metadata carries no annotations map, step 3's
action throws the `Object.entries` TypeError instead of creating a replacement
claim; in particular no replacement claim — with empty annotations or
otherwise — is produced, so the step aborts the run. -/
theorem replacementClaim_missing_anns (pvc : V1PersistentVolumeClaim) (cls : String)
    (h : pvc.metadata.annotations = none) :
    replacementClaim pvc cls = Except.error annotationsTypeError
    ∧ ∀ pvc', replacementClaim pvc cls ≠ Except.ok pvc' := by
  have he : replacementClaim pvc cls = Except.error annotationsTypeError := by
    unfold replacementClaim
    rw [h]
  refine ⟨he, fun pvc' hc => ?_⟩
  rw [he] at hc
  simp at hc

/-- C9 witness: the demo claim with no annotations map makes step 3 throw. -/
theorem replacementClaim_missing_anns_witness :
    replacementClaim demoPVCNoAnns "fast" = Except.error annotationsTypeError
    ∧ ∀ pvc', replacementClaim demoPVCNoAnns "fast" ≠ Except.ok pvc' :=
  replacementClaim_missing_anns demoPVCNoAnns "fast" rfl

/-- C8 (amended): if discovery finds no Bound volume whose claimRef matches
the source claim's uid (no volume in the list passes the match test), the
`if (pv)` guard skips the entire plan: no plan is built, no step action is
ever invoked, and — contrary to the original claim's final conjunct, refuted
by `noPV_silent_cex` — nothing beyond the discovery progress text is written:
the handler returns silently without reporting the failure. -/
theorem noPV_halts (pvs : List V1PersistentVolume) (pvc : V1PersistentVolumeClaim)
    (specs : List (String × StepBehavior)) (h : getPVForPVC pvs pvc = none) :
    (∀ pv ∈ pvs, pvMatchesPVC pvc pv = false)
    ∧ handler pvs pvc specs = HandlerResult.noBoundPV
    ∧ handlerOutputs pvs pvc = gatherOutputs := by
  unfold getPVForPVC at h
  refine ⟨?_, ?_, ?_⟩
  · intro pv hmem
    have := List.find?_eq_none.mp h pv hmem
    simpa using this
  · unfold handler getPVForPVC
    rw [h]
  · unfold handlerOutputs getPVForPVC
    rw [h]
    simp

/-- C8 counterexample: with a volume list whose only Bound volume references a
different claim uid, the handler halts with no plan — but no failure is
reported: the complete output of the run is exactly the discovery progress
text that precedes the guard. -/
theorem noPV_silent_cex :
    getPVForPVC demoPVsNoMatch demoPVC = none
    ∧ handler demoPVsNoMatch demoPVC [] = HandlerResult.noBoundPV
    ∧ handlerOutputs demoPVsNoMatch demoPVC = gatherOutputs := by
  decide

/-- C8 witness: the amended statement instantiated at the non-matching demo
volume list, with a nonempty step list standing by that is never consulted. -/
theorem noPV_halts_witness :
    (∀ pv ∈ demoPVsNoMatch, pvMatchesPVC demoPVC pv = false)
    ∧ handler demoPVsNoMatch demoPVC demoSpecs = HandlerResult.noBoundPV
    ∧ handlerOutputs demoPVsNoMatch demoPVC = gatherOutputs :=
  noPV_halts demoPVsNoMatch demoPVC demoSpecs (by decide)
